import Mathlib

/-!
Shallow embedding of the client-side temporary-credential cache
(`awsCredentials` in localStorage, validity checking, fetch-and-cache,
self-rescheduling refresh timer, logout) from the webapp utility module.

Times are absolute epoch milliseconds (`Int`).  The network and the clock
are passed in explicitly: a `FetchResponse` describes what the single
`fetch` call would observe, and `now` is the current time.
-/

namespace CredCache

/-- The value of the `expiration` field as it flows through the code:
either absent/`null`/`undefined`, an ISO-8601 date string (the JSON-stored
form, denoting timestamp `t`), an in-memory `Date` object with valid time
`t` (the form built by the fetcher), or an in-memory Invalid Date. -/
inductive ExpField where
  | nullish
  | isoStr (t : Int)
  | dateObj (t : Int)
  | invalidDate
  deriving DecidableEq, Repr

/-- `new Date(x).getTime()` on an expiration value; `none` models `NaN`
(`new Date(undefined)` and Invalid Date both have `NaN` time). -/
def ExpField.getTime : ExpField → Option Int
  | .nullish => none
  | .isoStr t => some t
  | .dateObj t => some t
  | .invalidDate => none

/-- JS truthiness of the expiration value: `undefined`/`null` are falsy,
an ISO date string is nonempty hence truthy, and any object (`Date`,
valid or not) is truthy. -/
def ExpField.truthy : ExpField → Bool
  | .nullish => false
  | .isoStr _ => true
  | .dateObj _ => true
  | .invalidDate => true

/-- The credential record object, with each field possibly
absent/`null`/`undefined` (collapsed into `none` / `ExpField.nullish`). -/
structure JsCreds where
  accessKeyId : Option String
  secretAccessKey : Option String
  sessionToken : Option String
  expiration : ExpField
  deriving DecidableEq, Repr

/-- Content of the `"awsCredentials"` localStorage key: absent, present
but not valid JSON, or a parsed record. -/
inductive StoreVal where
  | absent
  | malformed
  | record (r : JsCreds)
  deriving DecidableEq, Repr

/-- Effect of `JSON.stringify` on the expiration field: a valid `Date`
serializes to its ISO string, an Invalid Date serializes to `null`
(collapsed into `nullish`), strings and absent fields are unchanged. -/
def ExpField.stringify : ExpField → ExpField
  | .nullish => .nullish
  | .isoStr t => .isoStr t
  | .dateObj t => .isoStr t
  | .invalidDate => .nullish

/-- `setAwsCredentials`: `localStorage.setItem("awsCredentials",
JSON.stringify(awsCredentials))`. -/
def setAwsCredentials (c : JsCreds) : StoreVal :=
  .record { c with expiration := c.expiration.stringify }

/-- `getAwsCredentialsFromStorage`: absent key or malformed JSON yield
`null`. -/
def getAwsCredentialsFromStorage : StoreVal → Option JsCreds
  | .absent => none
  | .malformed => none
  | .record r => some r

/-- The 5-minute buffer before expiration, in milliseconds. -/
def bufferTime : Int := 5 * 60 * 1000

/-- `hasValidAwsCredentials`: false when the record is absent or any of
the four fields is `null`/`undefined`; otherwise compares
`currentTime + bufferTime < new Date(expiration).getTime()`
(a `NaN` expiration time makes the comparison false). -/
def hasValidAwsCredentials (store : StoreVal) (now : Int) : Bool :=
  match getAwsCredentialsFromStorage store with
  | none => false
  | some c =>
    if c.accessKeyId = none ∨ c.secretAccessKey = none ∨
        c.sessionToken = none ∨ c.expiration = .nullish then
      false
    else
      match c.expiration.getTime with
      | some t => decide (now + bufferTime < t)
      | none => false

/-- The distinguishable failure kinds thrown by the credential code:
the missing-configuration error, the non-2xx error (carrying status and
status text), a rejected `fetch` call, a `response.json()` failure, and
the `RangeError` thrown by `toISOString()` on an Invalid Date. -/
inductive CredError where
  | configError
  | networkError (status : Nat) (statusText : String)
  | transportError
  | jsonParseError
  | rangeError
  deriving DecidableEq, Repr

/-- Result of a credential operation: a returned record or a thrown
error. -/
inductive CredResult where
  | ok (c : JsCreds)
  | error (e : CredError)
  deriving DecidableEq, Repr

/-- A decoded 2xx response body.  `expiration = some t` means the field
is present and `new Date(data.expiration)` parses to timestamp `t`;
`none` means absent or unparseable (both give an Invalid Date). -/
structure RespBody where
  accessKeyId : Option String
  secretAccessKey : Option String
  sessionToken : Option String
  expiration : Option Int
  deriving DecidableEq, Repr

/-- What the single network call would observe: a transport failure
(`fetch` rejects), or an HTTP response with a status, status text, and a
body that either fails `response.json()` (`none`) or decodes. -/
inductive FetchResponse where
  | failure
  | http (status : Nat) (statusText : String) (body : Option RespBody)
  deriving DecidableEq, Repr

/-- `response.ok`: status in the 2xx range. -/
def responseOk (status : Nat) : Bool :=
  200 ≤ status && status < 300

/-- `getParamValue` from the config module: the SSM placeholder
`"not-defined"` maps to `undefined`. -/
def getParamValue (param : Option String) : Option String :=
  if param = some "not-defined" then none else param

/-- JS truthiness test `!apiUrl` on the configured URL: `undefined` and
the empty string are falsy. -/
def strFalsy : Option String → Bool
  | none => true
  | some s => s.isEmpty

/-- Outcome of `fetchCredentialsFromApi` / `getValidAwsCredentials`:
the returned (or thrown) value, the store afterwards, and how many
network calls were issued. -/
structure FetchOutcome where
  result : CredResult
  store : StoreVal
  networkCalls : Nat
  deriving DecidableEq, Repr

/-- `fetchCredentialsFromApi`: throws the configuration error when the
URL is falsy (before any network call); otherwise performs one `fetch`;
a rejected call or non-2xx status throws; `response.json()` failure
throws; otherwise it builds the record from the body fields as they are
(`new Date(data.expiration)`), throws `RangeError` from the
`toISOString()` log call when that date is invalid, and otherwise
persists the record and returns it. -/
def fetchCredentialsFromApi (apiUrl : Option String) (resp : FetchResponse)
    (store : StoreVal) : FetchOutcome :=
  if strFalsy apiUrl then
    ⟨.error .configError, store, 0⟩
  else
    match resp with
    | .failure => ⟨.error .transportError, store, 1⟩
    | .http status statusText body =>
      if responseOk status then
        match body with
        | none => ⟨.error .jsonParseError, store, 1⟩
        | some data =>
          let credentials : JsCreds :=
            { accessKeyId := data.accessKeyId
              secretAccessKey := data.secretAccessKey
              sessionToken := data.sessionToken
              expiration :=
                match data.expiration with
                | some t => .dateObj t
                | none => .invalidDate }
          match credentials.expiration.getTime with
          | none => ⟨.error .rangeError, store, 1⟩
          | some _ => ⟨.ok credentials, setAwsCredentials credentials, 1⟩
      else
        ⟨.error (.networkError status statusText), store, 1⟩

/-- `getValidAwsCredentials`: serve the stored record when it passes the
validity check (re-reading the store), otherwise fetch.  The `catch`
block only logs and rethrows.  The `none` branch under a passed check is
unreachable (the check implies a stored record). -/
def getValidAwsCredentials (apiUrl : Option String) (store : StoreVal)
    (now : Int) (resp : FetchResponse) : FetchOutcome :=
  if hasValidAwsCredentials store now then
    match getAwsCredentialsFromStorage store with
    | some c => ⟨.ok c, store, 0⟩
    | none => ⟨.error .jsonParseError, store, 0⟩
  else
    fetchCredentialsFromApi apiUrl resp store

/-- Which callback a pending timer runs: the 2-second initial-fetch
fallback (no deletion) or a genuine refresh (delete first). -/
inductive TimerKind where
  | prefetch
  | refresh
  deriving DecidableEq, Repr

/-- A pending `setTimeout` registration. -/
structure Timer where
  id : Nat
  delay : Int
  kind : TimerKind
  deriving DecidableEq, Repr

/-- The mutable state the module touches: the store, the module-level
`credentialRefreshTimerId` variable (which goes stale after a clear or a
fire — the code never nulls it), the set of pending timers of the
runtime, and the next timer id the runtime will hand out (browser timer
ids are positive). -/
structure SchedState where
  store : StoreVal
  timerId : Option Nat
  pending : List Timer
  nextId : Nat
  deriving DecidableEq, Repr

/-- `clearTimeout id`: removes the pending timer with that id, if any. -/
def clearTimeout (i : Nat) (pending : List Timer) : List Timer :=
  pending.filter (fun t => t.id ≠ i)

/-- The `if (credentialRefreshTimerId) clearTimeout(...)` step shared by
`startCredentialRefreshTimer` and `logout`. -/
def clearCurrent (σ : SchedState) : List Timer :=
  match σ.timerId with
  | some i => clearTimeout i σ.pending
  | none => σ.pending

/-- `startCredentialRefreshTimer`: clear any current timer; if the
stored record is missing or its expiration is falsy, arm the 2000 ms
pre-fetch fallback; otherwise arm a refresh at
`max 0 (expirationTime - now - bufferTime)` (a `NaN` expiration time
fails the `< 0` test and `setTimeout` coerces `NaN` to 0). -/
def startCredentialRefreshTimer (σ : SchedState) (now : Int) : SchedState :=
  let cleared := clearCurrent σ
  match getAwsCredentialsFromStorage σ.store with
  | none =>
    { σ with timerId := some σ.nextId,
             pending := cleared ++ [⟨σ.nextId, 2000, .prefetch⟩],
             nextId := σ.nextId + 1 }
  | some c =>
    if c.expiration.truthy then
      let refreshTime : Int :=
        match c.expiration.getTime with
        | some t => max 0 (t - now - bufferTime)
        | none => 0
      { σ with timerId := some σ.nextId,
               pending := cleared ++ [⟨σ.nextId, refreshTime, .refresh⟩],
               nextId := σ.nextId + 1 }
    else
      { σ with timerId := some σ.nextId,
               pending := cleared ++ [⟨σ.nextId, 2000, .prefetch⟩],
               nextId := σ.nextId + 1 }

/-- Outcome of one timer firing: the state afterwards, the number of
network calls made during the callback, and whether the callback reached
its `startCredentialRefreshTimer()` re-arm call. -/
structure FireOutcome where
  state : SchedState
  networkCalls : Nat
  rearmed : Bool
  deriving DecidableEq, Repr

/-- A pending timer elapses and its callback runs to completion
(single-threaded; the callback body is the `try`/`catch` from the
source).  A refresh-kind callback first deletes the stored record; both
kinds then call `getValidAwsCredentials` and, only when it succeeds,
re-arm via `startCredentialRefreshTimer`; the `catch` only logs.  With
no pending timer nothing happens. -/
def fireTimer (σ : SchedState) (apiUrl : Option String) (now : Int)
    (resp : FetchResponse) : FireOutcome :=
  match σ.pending with
  | [] => ⟨σ, 0, false⟩
  | t :: rest =>
    let elapsed : SchedState := { σ with pending := rest }
    let store₁ : StoreVal :=
      match t.kind with
      | .prefetch => elapsed.store
      | .refresh => .absent
    let out := getValidAwsCredentials apiUrl store₁ now resp
    match out.result with
    | .ok _ =>
      ⟨startCredentialRefreshTimer { elapsed with store := out.store } now,
        out.networkCalls, true⟩
    | .error _ =>
      ⟨{ elapsed with store := out.store }, out.networkCalls, false⟩

/-- `logout`: delete the stored record and clear any current timer.
(The `window.location.reload()` call is an external collaborator
effect.) -/
def logout (σ : SchedState) : SchedState :=
  { σ with store := .absent, pending := clearCurrent σ }

/-- Fresh module state over an arbitrary initial store: the timer id
variable is `null` and nothing is pending. -/
def initState (store : StoreVal) : SchedState :=
  ⟨store, none, [], 1⟩

/-- States reachable by the module's operations: start, a timer firing,
logout, and a direct caller-initiated `getValidAwsCredentials` (which
only touches the store). -/
inductive Reachable : SchedState → Prop where
  | init (store : StoreVal) : Reachable (initState store)
  | start (σ : SchedState) (now : Int) :
      Reachable σ → Reachable (startCredentialRefreshTimer σ now)
  | fire (σ : SchedState) (apiUrl : Option String) (now : Int)
      (resp : FetchResponse) :
      Reachable σ → Reachable (fireTimer σ apiUrl now resp).state
  | doLogout (σ : SchedState) : Reachable σ → Reachable (logout σ)
  | managerCall (σ : SchedState) (apiUrl : Option String) (now : Int)
      (resp : FetchResponse) :
      Reachable σ →
      Reachable { σ with store := (getValidAwsCredentials apiUrl σ.store now resp).store }

/-- The single-pending-timer invariant: either nothing is pending, or
exactly one timer is pending and the module variable holds its id. -/
def TimerInv (σ : SchedState) : Prop :=
  σ.pending = [] ∨ ∃ t, σ.pending = [t] ∧ σ.timerId = some t.id

lemma clearCurrent_eq_nil (σ : SchedState) (h : TimerInv σ) : clearCurrent σ = [] := by
  rcases h with h | ⟨t, hp, hid⟩
  · unfold clearCurrent
    rcases σ.timerId with _ | i <;> simp [h, clearTimeout]
  · unfold clearCurrent
    rw [hid, hp]
    simp [clearTimeout]

lemma startCredentialRefreshTimer_shape (σ : SchedState) (now : Int) (h : TimerInv σ) :
    ∃ d k, startCredentialRefreshTimer σ now =
      ⟨σ.store, some σ.nextId, [⟨σ.nextId, d, k⟩], σ.nextId + 1⟩ := by
  have hc := clearCurrent_eq_nil σ h
  unfold startCredentialRefreshTimer
  rcases hg : getAwsCredentialsFromStorage σ.store with _ | c
  · exact ⟨2000, .prefetch, by simp [hc]⟩
  · cases ht : c.expiration.truthy
    · exact ⟨2000, .prefetch, by simp [hc, ht]⟩
    · exact ⟨(match c.expiration.getTime with
        | some t => max 0 (t - now - bufferTime)
        | none => 0), .refresh, by simp [hc, ht]⟩

lemma timerInv_start (σ : SchedState) (now : Int) (h : TimerInv σ) :
    TimerInv (startCredentialRefreshTimer σ now) ∧
      (startCredentialRefreshTimer σ now).pending.length = 1 := by
  obtain ⟨d, k, heq⟩ := startCredentialRefreshTimer_shape σ now h
  rw [heq]
  exact ⟨Or.inr ⟨⟨σ.nextId, d, k⟩, rfl, rfl⟩, rfl⟩

lemma timerInv_fire (σ : SchedState) (apiUrl : Option String) (now : Int)
    (resp : FetchResponse) (h : TimerInv σ) :
    TimerInv (fireTimer σ apiUrl now resp).state := by
  rcases h with h | ⟨t, hp, hid⟩
  · simp only [fireTimer, h]
    exact Or.inl h
  · obtain ⟨i, d, k⟩ := t
    cases k
    case prefetch =>
      simp only [fireTimer, hp]
      generalize getValidAwsCredentials apiUrl σ.store now resp = out
      obtain ⟨res, st, n⟩ := out
      rcases res with c | e
      · exact (timerInv_start _ now (Or.inl rfl)).1
      · exact Or.inl rfl
    case refresh =>
      simp only [fireTimer, hp]
      generalize getValidAwsCredentials apiUrl StoreVal.absent now resp = out
      obtain ⟨res, st, n⟩ := out
      rcases res with c | e
      · exact (timerInv_start _ now (Or.inl rfl)).1
      · exact Or.inl rfl

lemma timerInv_logout (σ : SchedState) (h : TimerInv σ) : TimerInv (logout σ) :=
  Or.inl (clearCurrent_eq_nil σ h)

/-- Every reachable state satisfies the single-pending-timer invariant. -/
lemma reachable_timerInv (σ : SchedState) (h : Reachable σ) : TimerInv σ := by
  induction h with
  | init store => exact Or.inl rfl
  | start σ now _ ih => exact (timerInv_start σ now ih).1
  | fire σ apiUrl now resp _ ih => exact timerInv_fire σ apiUrl now resp ih
  | doLogout σ _ ih => exact timerInv_logout σ ih
  | managerCall σ apiUrl now resp _ ih =>
    rcases ih with h | ⟨t, hp, hid⟩
    · exact Or.inl h
    · exact Or.inr ⟨t, hp, hid⟩

lemma hasValid_implies_stored (store : StoreVal) (now : Int)
    (h : hasValidAwsCredentials store now = true) :
    ∃ c, getAwsCredentialsFromStorage store = some c := by
  unfold hasValidAwsCredentials at h
  rcases hg : getAwsCredentialsFromStorage store with _ | c
  · rw [hg] at h
    exact absurd h (by simp)
  · exact ⟨c, rfl⟩

lemma getValid_cache_hit (apiUrl : Option String) (store : StoreVal) (now : Int)
    (resp : FetchResponse) (h : hasValidAwsCredentials store now = true) :
    ∃ c, getAwsCredentialsFromStorage store = some c ∧
      getValidAwsCredentials apiUrl store now resp = ⟨.ok c, store, 0⟩ := by
  obtain ⟨c, hc⟩ := hasValid_implies_stored store now h
  refine ⟨c, hc, ?_⟩
  unfold getValidAwsCredentials
  simp [h, hc]

lemma getValid_not_valid (apiUrl : Option String) (store : StoreVal) (now : Int)
    (resp : FetchResponse) (h : hasValidAwsCredentials store now = false) :
    getValidAwsCredentials apiUrl store now resp = fetchCredentialsFromApi apiUrl resp store := by
  unfold getValidAwsCredentials
  simp [h]

lemma startCredentialRefreshTimer_store (σ : SchedState) (now : Int) :
    (startCredentialRefreshTimer σ now).store = σ.store := by
  unfold startCredentialRefreshTimer
  rcases hg : getAwsCredentialsFromStorage σ.store with _ | c
  · rfl
  · cases ht : c.expiration.truthy
    · simp [ht]
    · simp [ht]

lemma fetch_networkCalls (apiUrl : Option String) (resp : FetchResponse) (store : StoreVal)
    (h : strFalsy apiUrl = false) :
    (fetchCredentialsFromApi apiUrl resp store).networkCalls = 1 := by
  unfold fetchCredentialsFromApi
  rcases resp with _ | ⟨st, sx, body⟩
  · simp [h]
  · cases hr : responseOk st
    · simp [h, hr]
    · rcases body with _ | data
      · simp [h, hr]
      · rcases hd : data.expiration with _ | t <;> simp [h, hr, hd, ExpField.getTime]

/-- Claim C2: `hasValidAwsCredentials` returns false whenever the stored
record is absent or malformed JSON (storage read yields nothing) or any
of the four fields is absent/null; when all four fields are present with
expiration denoting timestamp `t`, it returns true iff
`now + 5-minute buffer < t`. -/
theorem claim_C2_hasValid (store : StoreVal) (now : Int) :
    (getAwsCredentialsFromStorage store = none →
      hasValidAwsCredentials store now = false) ∧
    (∀ c, getAwsCredentialsFromStorage store = some c →
      (c.accessKeyId = none ∨ c.secretAccessKey = none ∨ c.sessionToken = none ∨
        c.expiration = ExpField.nullish) →
      hasValidAwsCredentials store now = false) ∧
    (∀ c t, getAwsCredentialsFromStorage store = some c →
      c.accessKeyId ≠ none → c.secretAccessKey ≠ none → c.sessionToken ≠ none →
      c.expiration.getTime = some t →
      (hasValidAwsCredentials store now = true ↔ now + bufferTime < t)) := by
  refine ⟨fun hnone => ?_, fun c hc hnull => ?_, fun c t hc ha hs hk he => ?_⟩
  · unfold hasValidAwsCredentials
    rw [hnone]
  · unfold hasValidAwsCredentials
    rw [hc]
    simp only [if_pos hnull]
  · have hu : c.expiration ≠ ExpField.nullish := by
      intro hcontra
      rw [hcontra] at he
      cases he
    simp only [hasValidAwsCredentials, hc]
    rw [if_neg (by tauto)]
    simp only [he]
    exact decide_eq_true_iff

/-- Witness for C2 at concrete inputs: an absent store is invalid, a
record missing `accessKeyId` is invalid, and a full record expiring at
1000000 ms is valid at time 0 iff the buffered comparison holds. -/
theorem claim_C2_hasValid_witness :
    hasValidAwsCredentials .absent 0 = false ∧
    hasValidAwsCredentials (.record ⟨none, some "s", some "k", .isoStr 1000000⟩) 0 = false ∧
    (hasValidAwsCredentials (.record ⟨some "a", some "s", some "k", .isoStr 1000000⟩) 0 = true ↔
      0 + bufferTime < 1000000) := by
  refine ⟨(claim_C2_hasValid .absent 0).1 rfl,
    (claim_C2_hasValid _ 0).2.1 _ rfl (Or.inl rfl),
    (claim_C2_hasValid _ 0).2.2 _ 1000000 rfl (by simp) (by simp) (by simp) rfl⟩

/-- Claim C5: with the endpoint URL unset (or empty), the manager never
issues a network call; whenever the cached record fails the validity
check it throws the configuration error; and any error it throws is the
configuration error — a kind distinct from the network and parse
errors. -/
theorem claim_C5_configError (apiUrl : Option String) (h : strFalsy apiUrl = true)
    (store : StoreVal) (now : Int) (resp : FetchResponse) :
    (getValidAwsCredentials apiUrl store now resp).networkCalls = 0 ∧
    (hasValidAwsCredentials store now = false →
      (getValidAwsCredentials apiUrl store now resp).result = .error .configError) ∧
    (∀ e, (getValidAwsCredentials apiUrl store now resp).result = .error e →
      e = .configError) := by
  cases hv : hasValidAwsCredentials store now
  · rw [getValid_not_valid apiUrl store now resp hv]
    unfold fetchCredentialsFromApi
    simp [h]
  · obtain ⟨c, hc, heq⟩ := getValid_cache_hit apiUrl store now resp hv
    rw [heq]
    refine ⟨rfl, fun hcontra => ?_, fun e he => ?_⟩
    · exact absurd hcontra (by simp)
    · simp at he

/-- Witness for C5: no URL, empty store, at time 0. -/
theorem claim_C5_configError_witness :
    (getValidAwsCredentials none .absent 0 .failure).networkCalls = 0 ∧
    (getValidAwsCredentials none .absent 0 .failure).result = .error .configError :=
  ⟨(claim_C5_configError none (by decide) .absent 0 .failure).1,
   (claim_C5_configError none (by decide) .absent 0 .failure).2.1 (by decide)⟩

/-- Claim C3 counterexample: with an empty store, a configured URL, and
a 2xx response whose expiration (100000 ms) is inside the 5-minute
buffer at time 0, the manager issues one network call and returns and
stores the fetched record, but that record does not satisfy the
validity check — refuting "the record it returns satisfies the validity
check". -/
theorem claim_C3_cex :
    getValidAwsCredentials (some "u") .absent 0
        (.http 200 "OK" (some ⟨some "a", some "s", some "k", some 100000⟩)) =
      ⟨.ok ⟨some "a", some "s", some "k", .dateObj 100000⟩,
        .record ⟨some "a", some "s", some "k", .isoStr 100000⟩, 1⟩ ∧
    hasValidAwsCredentials
      (.record ⟨some "a", some "s", some "k", .isoStr 100000⟩) 0 = false := by
  decide

/-- Claim C3 (amended): if the stored record passes the validity check,
the manager returns it unchanged with zero network calls; otherwise,
when the URL is configured, it issues exactly one network call, and on
success the returned record is exactly what is stored, and that stored
record passes the validity check iff all three string fields were
present in the response and the fetched expiration `t` satisfies
`now + buffer < t`. -/
theorem claim_C3_getValid (apiUrl : Option String) (store : StoreVal) (now : Int)
    (resp : FetchResponse) :
    (hasValidAwsCredentials store now = true →
      ∃ c, getAwsCredentialsFromStorage store = some c ∧
        getValidAwsCredentials apiUrl store now resp = ⟨.ok c, store, 0⟩) ∧
    (hasValidAwsCredentials store now = false → strFalsy apiUrl = false →
      (getValidAwsCredentials apiUrl store now resp).networkCalls = 1 ∧
      ∀ c, (getValidAwsCredentials apiUrl store now resp).result = .ok c →
        (getValidAwsCredentials apiUrl store now resp).store = setAwsCredentials c ∧
        (hasValidAwsCredentials (setAwsCredentials c) now = true ↔
          c.accessKeyId ≠ none ∧ c.secretAccessKey ≠ none ∧ c.sessionToken ≠ none ∧
          ∃ t, c.expiration = ExpField.dateObj t ∧ now + bufferTime < t)) := by
  refine ⟨fun hv => getValid_cache_hit apiUrl store now resp hv, fun hv hurl => ?_⟩
  rw [getValid_not_valid apiUrl store now resp hv]
  refine ⟨fetch_networkCalls apiUrl resp store hurl, fun c hres => ?_⟩
  unfold fetchCredentialsFromApi at hres ⊢
  rcases resp with _ | ⟨st, sx, body⟩
  · simp [hurl] at hres
  · cases hr : responseOk st
    · simp [hurl, hr] at hres
    · rcases body with _ | data
      · simp [hurl, hr] at hres
      · rcases hd : data.expiration with _ | t
        · simp [hurl, hr, hd, ExpField.getTime] at hres
        · simp only [hurl, hr, hd, ExpField.getTime, Bool.false_eq_true, if_false, if_true] at hres ⊢
          have hc : c = ⟨data.accessKeyId, data.secretAccessKey, data.sessionToken, .dateObj t⟩ := by
            simp only [CredResult.ok.injEq] at hres
            exact hres.symm
          subst hc
          refine ⟨by simp, ?_⟩
          unfold setAwsCredentials hasValidAwsCredentials getAwsCredentialsFromStorage
          rcases data.accessKeyId with _ | a <;> rcases data.secretAccessKey with _ | s <;>
            rcases data.sessionToken with _ | k <;>
            simp [ExpField.stringify, ExpField.getTime]

/-- Witness for C3 (amended): the cache-hit half at a stored record valid
at time 0 (no fetch attempted), and the fetch half at an empty store
with a far-future response expiration (one network call). -/
theorem claim_C3_getValid_witness :
    getValidAwsCredentials (some "u") (.record ⟨some "a", some "s", some "k", .isoStr 1000000⟩)
        0 .failure =
      ⟨.ok ⟨some "a", some "s", some "k", .isoStr 1000000⟩,
        .record ⟨some "a", some "s", some "k", .isoStr 1000000⟩, 0⟩ ∧
    (getValidAwsCredentials (some "u") .absent 0
        (.http 200 "OK" (some ⟨some "a", some "s", some "k", some 99999999⟩))).networkCalls = 1 := by
  constructor
  · obtain ⟨c, hc, heq⟩ := (claim_C3_getValid (some "u")
      (.record ⟨some "a", some "s", some "k", .isoStr 1000000⟩) 0 .failure).1 (by decide)
    have hcc : (⟨some "a", some "s", some "k", .isoStr 1000000⟩ : JsCreds) = c :=
      Option.some.inj hc
    rw [← hcc] at heq
    exact heq
  · exact ((claim_C3_getValid (some "u") .absent 0
      (.http 200 "OK" (some ⟨some "a", some "s", some "k", some 99999999⟩))).2
        (by decide) (by decide)).1

/-- Claim C4 counterexample: a 2xx response whose valid-JSON body has
only an expiration field — so it cannot be decoded into the four
required fields — does not make the fetcher fail: it returns a partial
record and persists it with the three string fields missing, refuting
both the ParseError claim and "never persists a partial record". -/
theorem claim_C4_cex :
    fetchCredentialsFromApi (some "u")
        (.http 200 "OK" (some ⟨none, none, none, some 9999999⟩)) .absent =
      ⟨.ok ⟨none, none, none, .dateObj 9999999⟩,
        .record ⟨none, none, none, .isoStr 9999999⟩, 1⟩ := by
  decide

/-- Claim C4 (amended): for a 2xx response, a body that fails JSON
decoding throws a parse error without persisting anything; a decoded
body whose expiration is absent or unparseable throws (the RangeError
raised by the `toISOString` log call) before persisting; but a decoded
body with a parseable expiration always succeeds and persists the
constructed record even when the three string fields are missing — such
a partial record is then treated as invalid by the validity check. -/
theorem claim_C4_fetch_decode (apiUrl : Option String) (h : strFalsy apiUrl = false)
    (status : Nat) (statusText : String) (hok : responseOk status = true)
    (body : Option RespBody) (store : StoreVal) :
    (body = none →
      fetchCredentialsFromApi apiUrl (.http status statusText body) store =
        ⟨.error .jsonParseError, store, 1⟩) ∧
    (∀ data, body = some data → data.expiration = none →
      fetchCredentialsFromApi apiUrl (.http status statusText body) store =
        ⟨.error .rangeError, store, 1⟩) ∧
    (∀ data t, body = some data → data.expiration = some t →
      ∃ c, fetchCredentialsFromApi apiUrl (.http status statusText body) store =
          ⟨.ok c, setAwsCredentials c, 1⟩ ∧
        c = ⟨data.accessKeyId, data.secretAccessKey, data.sessionToken, .dateObj t⟩ ∧
        ((data.accessKeyId = none ∨ data.secretAccessKey = none ∨ data.sessionToken = none) →
          ∀ m, hasValidAwsCredentials (setAwsCredentials c) m = false)) := by
  refine ⟨fun hb => ?_, fun data hb hd => ?_, fun data t hb hd => ?_⟩
  · subst hb
    unfold fetchCredentialsFromApi
    simp [h, hok]
  · subst hb
    unfold fetchCredentialsFromApi
    simp [h, hok, hd, ExpField.getTime]
  · subst hb
    refine ⟨⟨data.accessKeyId, data.secretAccessKey, data.sessionToken, .dateObj t⟩, ?_, rfl, ?_⟩
    · unfold fetchCredentialsFromApi
      simp [h, hok, hd, ExpField.getTime]
    · intro hmiss m
      unfold setAwsCredentials hasValidAwsCredentials getAwsCredentialsFromStorage
      simp only [ExpField.stringify]
      rw [if_pos ?_]
      rcases hmiss with hm | hm | hm <;> simp [hm]

/-- Witness for C4 (amended), first part: a 2xx response with an
undecodable body fails with the parse error and persists nothing. -/
theorem claim_C4_fetch_decode_witness :
    fetchCredentialsFromApi (some "u") (.http 200 "OK" none) .absent =
      ⟨.error .jsonParseError, .absent, 1⟩ :=
  (claim_C4_fetch_decode (some "u") (by decide) 200 "OK" (by decide) none .absent).1 rfl

/-- Claim C1 counterexample: starting with an empty store and no
configured URL arms the fallback timer; when it fires, the fetch throws
the configuration error and the `catch` block only logs — the callback
never reaches its re-arm call, so afterwards no timer is pending: a
fetch failure does stop the autonomous refresh loop. -/
theorem claim_C1_cex :
    (startCredentialRefreshTimer (initState .absent) 0).pending.length = 1 ∧
    (fireTimer (startCredentialRefreshTimer (initState .absent) 0)
        none 0 .failure).state.pending = [] ∧
    (fireTimer (startCredentialRefreshTimer (initState .absent) 0)
        none 0 .failure).rearmed = false := by
  decide

/-- Claim C1 (amended): when a pending timer fires, the scheduler
re-arms exactly when `getValidAwsCredentials` succeeds; when it throws
— any of the error kinds — the `catch` block only logs and no timer is
re-armed, leaving nothing pending until the next explicit start. -/
theorem claim_C1_fire_rearm (σ : SchedState) (apiUrl : Option String) (now : Int)
    (resp : FetchResponse) (t : Timer) (h : σ.pending = [t]) :
    (∀ c, (getValidAwsCredentials apiUrl
        (match t.kind with | .prefetch => σ.store | .refresh => StoreVal.absent)
        now resp).result = .ok c →
      (fireTimer σ apiUrl now resp).rearmed = true ∧
      (fireTimer σ apiUrl now resp).state.pending.length = 1) ∧
    (∀ e, (getValidAwsCredentials apiUrl
        (match t.kind with | .prefetch => σ.store | .refresh => StoreVal.absent)
        now resp).result = .error e →
      (fireTimer σ apiUrl now resp).rearmed = false ∧
      (fireTimer σ apiUrl now resp).state.pending = []) := by
  obtain ⟨i, d, k⟩ := t
  cases k
  case prefetch =>
    simp only [fireTimer, h]
    generalize getValidAwsCredentials apiUrl σ.store now resp = out
    obtain ⟨res, st, n⟩ := out
    rcases res with c | e
    · refine ⟨fun c' _ => ⟨rfl, ?_⟩, fun e' he' => by simp at he'⟩
      exact (timerInv_start _ now (Or.inl rfl)).2
    · exact ⟨fun c' hc' => by simp at hc', fun e' _ => ⟨rfl, rfl⟩⟩
  case refresh =>
    simp only [fireTimer, h]
    generalize getValidAwsCredentials apiUrl StoreVal.absent now resp = out
    obtain ⟨res, st, n⟩ := out
    rcases res with c | e
    · refine ⟨fun c' _ => ⟨rfl, ?_⟩, fun e' he' => by simp at he'⟩
      exact (timerInv_start _ now (Or.inl rfl)).2
    · exact ⟨fun c' hc' => by simp at hc', fun e' _ => ⟨rfl, rfl⟩⟩

/-- Witness for C1 (amended): the success half at a configured URL with
a good response (re-armed, one pending), and the failure half at a
missing URL (not re-armed, nothing pending). -/
theorem claim_C1_fire_rearm_witness :
    ((fireTimer ⟨.absent, some 1, [⟨1, 2000, .prefetch⟩], 2⟩ (some "u") 0
        (.http 200 "OK" (some ⟨some "a", some "s", some "k", some 99999999⟩))).rearmed = true ∧
      (fireTimer ⟨.absent, some 1, [⟨1, 2000, .prefetch⟩], 2⟩ (some "u") 0
        (.http 200 "OK" (some ⟨some "a", some "s", some "k", some 99999999⟩))).state.pending.length = 1) ∧
    ((fireTimer ⟨.absent, some 1, [⟨1, 2000, .prefetch⟩], 2⟩ none 0 .failure).rearmed = false ∧
      (fireTimer ⟨.absent, some 1, [⟨1, 2000, .prefetch⟩], 2⟩ none 0 .failure).state.pending = []) := by
  constructor
  · exact (claim_C1_fire_rearm ⟨.absent, some 1, [⟨1, 2000, .prefetch⟩], 2⟩ (some "u") 0
      (.http 200 "OK" (some ⟨some "a", some "s", some "k", some 99999999⟩))
      ⟨1, 2000, .prefetch⟩ rfl).1 ⟨some "a", some "s", some "k", .dateObj 99999999⟩ (by decide)
  · exact (claim_C1_fire_rearm ⟨.absent, some 1, [⟨1, 2000, .prefetch⟩], 2⟩ none 0 .failure
      ⟨1, 2000, .prefetch⟩ rfl).2 .configError (by decide)

/-- Claim C6: every reachable state has at most one pending timer, and
starting the scheduler — once or twice in a row — always leaves exactly
one pending timer, because arming first cancels the current one. -/
theorem claim_C6_single_timer (σ : SchedState) (h : Reachable σ) (n1 n2 : Int) :
    σ.pending.length ≤ 1 ∧
    (startCredentialRefreshTimer σ n1).pending.length = 1 ∧
    (startCredentialRefreshTimer (startCredentialRefreshTimer σ n1) n2).pending.length = 1 := by
  have hi := reachable_timerInv σ h
  have h1 := timerInv_start σ n1 hi
  have h2 := timerInv_start _ n2 h1.1
  refine ⟨?_, h1.2, h2.2⟩
  rcases hi with h0 | ⟨t, hp, _⟩
  · simp [h0]
  · simp [hp]

/-- Witness for C6 at the initial empty state. -/
theorem claim_C6_single_timer_witness :
    (initState .absent).pending.length ≤ 1 ∧
    (startCredentialRefreshTimer (initState .absent) 0).pending.length = 1 ∧
    (startCredentialRefreshTimer (startCredentialRefreshTimer (initState .absent) 0) 5).pending.length = 1 :=
  claim_C6_single_timer (initState .absent) (Reachable.init .absent) 0 5

/-- Claim C7: starting the scheduler over a stored record whose
expiration denotes timestamp `t` arms a refresh timer with delay
`max 0 (t - now - buffer)`; with no stored record, or a stored record
whose expiration field is absent, it arms the fixed 2000 ms pre-fetch
fallback instead. -/
theorem claim_C7_start_delay (σ : SchedState) (now : Int) :
    (∀ c t, getAwsCredentialsFromStorage σ.store = some c →
      c.expiration = ExpField.isoStr t →
      Timer.mk σ.nextId (max 0 (t - now - bufferTime)) .refresh ∈
        (startCredentialRefreshTimer σ now).pending) ∧
    ((getAwsCredentialsFromStorage σ.store = none ∨
        ∃ c, getAwsCredentialsFromStorage σ.store = some c ∧
          c.expiration = ExpField.nullish) →
      Timer.mk σ.nextId 2000 .prefetch ∈ (startCredentialRefreshTimer σ now).pending) := by
  constructor
  · intro c t hg he
    simp only [startCredentialRefreshTimer, hg, he, ExpField.truthy, ExpField.getTime, if_true]
    simp
  · intro hcase
    rcases hcase with hg | ⟨c, hg, he⟩
    · simp only [startCredentialRefreshTimer, hg]
      simp
    · simp only [startCredentialRefreshTimer, hg, he, ExpField.truthy, Bool.false_eq_true, if_false]
      simp

/-- Witness for C7: a record expiring at 600000 ms at time 0 yields a
refresh timer delayed 5 minutes before expiration, and an empty store
yields the 2000 ms fallback. -/
theorem claim_C7_start_delay_witness :
    Timer.mk 1 (max 0 (600000 - 0 - bufferTime)) .refresh ∈
      (startCredentialRefreshTimer
        (initState (.record ⟨some "a", some "s", some "k", .isoStr 600000⟩)) 0).pending ∧
    Timer.mk 1 2000 .prefetch ∈ (startCredentialRefreshTimer (initState .absent) 0).pending :=
  ⟨(claim_C7_start_delay (initState (.record ⟨some "a", some "s", some "k", .isoStr 600000⟩)) 0).1
      ⟨some "a", some "s", some "k", .isoStr 600000⟩ 600000 rfl rfl,
   (claim_C7_start_delay (initState .absent) 0).2 (Or.inl rfl)⟩

/-- Claim C8: when the pending timer is a genuine refresh and the URL is
configured, firing it always issues a network call — even if the stored
record is still valid — because the callback deletes the stored record
before calling the manager; when the pending timer is the initial-fetch
fallback and the stored record is valid, firing it issues no network
call and leaves the stored record in place. -/
theorem claim_C8_refresh_deletes (σ : SchedState) (apiUrl : Option String) (now : Int)
    (resp : FetchResponse) (t : Timer) (h : σ.pending = [t]) :
    (t.kind = .refresh → strFalsy apiUrl = false →
      (fireTimer σ apiUrl now resp).networkCalls = 1) ∧
    (t.kind = .prefetch → hasValidAwsCredentials σ.store now = true →
      (fireTimer σ apiUrl now resp).networkCalls = 0 ∧
      (fireTimer σ apiUrl now resp).state.store = σ.store) := by
  obtain ⟨i, d, k⟩ := t
  cases k
  case refresh =>
    refine ⟨fun _ hurl => ?_, fun hcontra => ?_⟩
    case refine_2 => cases hcontra
    simp only [fireTimer, h]
    have habs : hasValidAwsCredentials StoreVal.absent now = false := rfl
    rw [getValid_not_valid apiUrl StoreVal.absent now resp habs]
    have hcall := fetch_networkCalls apiUrl resp StoreVal.absent hurl
    generalize hout : fetchCredentialsFromApi apiUrl resp StoreVal.absent = out at hcall
    obtain ⟨res, st, n⟩ := out
    rcases res with c | e
    · exact hcall
    · exact hcall
  case prefetch =>
    refine ⟨fun hcontra => ?_, fun _ hv => ?_⟩
    case refine_1 => cases hcontra
    simp only [fireTimer, h]
    obtain ⟨c, hc, heq⟩ := getValid_cache_hit apiUrl σ.store now resp hv
    rw [heq]
    exact ⟨rfl, startCredentialRefreshTimer_store _ now⟩

/-- Witness for C8: a store holding a record valid at time 0; the
refresh fire still makes one network call, while the fallback fire makes
none and keeps the record. -/
theorem claim_C8_refresh_deletes_witness :
    (fireTimer ⟨.record ⟨some "a", some "s", some "k", .isoStr 1000000⟩, some 1,
        [⟨1, 0, .refresh⟩], 2⟩ (some "u") 0 .failure).networkCalls = 1 ∧
    ((fireTimer ⟨.record ⟨some "a", some "s", some "k", .isoStr 1000000⟩, some 1,
        [⟨1, 2000, .prefetch⟩], 2⟩ (some "u") 0 .failure).networkCalls = 0 ∧
      (fireTimer ⟨.record ⟨some "a", some "s", some "k", .isoStr 1000000⟩, some 1,
        [⟨1, 2000, .prefetch⟩], 2⟩ (some "u") 0 .failure).state.store =
        .record ⟨some "a", some "s", some "k", .isoStr 1000000⟩) := by
  constructor
  · exact (claim_C8_refresh_deletes ⟨.record ⟨some "a", some "s", some "k", .isoStr 1000000⟩,
      some 1, [⟨1, 0, .refresh⟩], 2⟩ (some "u") 0 .failure ⟨1, 0, .refresh⟩ rfl).1 rfl (by decide)
  · exact (claim_C8_refresh_deletes ⟨.record ⟨some "a", some "s", some "k", .isoStr 1000000⟩,
      some 1, [⟨1, 2000, .prefetch⟩], 2⟩ (some "u") 0 .failure ⟨1, 2000, .prefetch⟩ rfl).2 rfl (by decide)

/-- Claim C9: from any reachable state, `logout` deletes the stored
record (a subsequent store read returns nothing) and cancels the
pending timer, so no timer is pending and a timer fire is a no-op with
zero network calls until the scheduler is started again. -/
theorem claim_C9_logout (σ : SchedState) (h : Reachable σ) :
    (logout σ).store = .absent ∧
    getAwsCredentialsFromStorage (logout σ).store = none ∧
    (logout σ).pending = [] ∧
    ∀ apiUrl now resp, fireTimer (logout σ) apiUrl now resp = ⟨logout σ, 0, false⟩ := by
  have hc : (logout σ).pending = [] := clearCurrent_eq_nil σ (reachable_timerInv σ h)
  refine ⟨rfl, rfl, hc, fun apiUrl now resp => ?_⟩
  unfold fireTimer
  rw [hc]

/-- Witness for C9: logout from a state where a timer is pending (the
scheduler was started over a stored record). -/
theorem claim_C9_logout_witness :
    (logout (startCredentialRefreshTimer
      (initState (.record ⟨some "a", some "s", some "k", .isoStr 1000000⟩)) 0)).store = .absent ∧
    (logout (startCredentialRefreshTimer
      (initState (.record ⟨some "a", some "s", some "k", .isoStr 1000000⟩)) 0)).pending = [] ∧
    fireTimer (logout (startCredentialRefreshTimer
        (initState (.record ⟨some "a", some "s", some "k", .isoStr 1000000⟩)) 0)) none 0 .failure =
      ⟨logout (startCredentialRefreshTimer
        (initState (.record ⟨some "a", some "s", some "k", .isoStr 1000000⟩)) 0), 0, false⟩ := by
  have h := claim_C9_logout (startCredentialRefreshTimer
    (initState (.record ⟨some "a", some "s", some "k", .isoStr 1000000⟩)) 0)
    (Reachable.start _ 0 (Reachable.init _))
  exact ⟨h.1, h.2.2.1, h.2.2.2 none 0 .failure⟩

/-- Claim C10: the manager's two paths return differently shaped
records for the same credential data: a cache hit returns the
JSON-parsed stored object whose expiration is the serialized ISO string,
while the fetch path returns the freshly built object whose expiration
is a `Date` value — and the string form and the `Date` form of the very
same timestamp are unequal representations. -/
theorem claim_C10_path_repr :
    getValidAwsCredentials (some "u")
        (.record ⟨some "a", some "s", some "k", .isoStr 1000000⟩) 0 .failure =
      ⟨.ok ⟨some "a", some "s", some "k", .isoStr 1000000⟩,
        .record ⟨some "a", some "s", some "k", .isoStr 1000000⟩, 0⟩ ∧
    getValidAwsCredentials (some "u") .absent 0
        (.http 200 "OK" (some ⟨some "a", some "s", some "k", some 1000000⟩)) =
      ⟨.ok ⟨some "a", some "s", some "k", .dateObj 1000000⟩,
        .record ⟨some "a", some "s", some "k", .isoStr 1000000⟩, 1⟩ ∧
    ExpField.isoStr 1000000 ≠ ExpField.dateObj 1000000 := by
  decide

end CredCache
